import Mathlib

/-!
Verification of the print-job spooler (`spool.c`).

The program keeps a global queue of print jobs, adds jobs with
sequentially assigned ids, and runs three scheduling simulations
(FCFS, SJF, Priority) over it, computing wait/turnaround metrics.

C machine integers are modelled as `Int` (the values involved are
small user inputs and counters; no overflow behaviour is relied on by
the program), the C `double` accumulators as exact integers with the
final averages in `ℚ`.
-/

/-- The `PrintJob` struct of `spool.c`: id, page count ("burst time"),
and priority (lower number = higher priority). -/
structure PrintJob where
  job_id : Int
  page_count : Int
  priority : Int
deriving DecidableEq, Repr

/-- `MAX_JOBS`: maximum number of jobs in the queue. -/
def MAX_JOBS : Nat := 100

/-- The mutable globals of `spool.c`: `job_queue` (modelled as the list
of the `job_count` occupied cells of the C array, so `job_count` is the
length of the list) and `next_job_id`. -/
structure SpoolState where
  job_queue : List PrintJob
  next_job_id : Int
deriving DecidableEq, Repr

/-- The number of jobs currently in the queue (the C global `job_count`). -/
def SpoolState.job_count (s : SpoolState) : Nat := s.job_queue.length

/-- Initial values of the globals: empty queue, `next_job_id = 1`. -/
def initState : SpoolState := { job_queue := [], next_job_id := 1 }

/-- Outcome of `addJob`: either a job was appended, or the submission
was rejected (queue full, or non-positive page count / priority). -/
inductive AddResult where
  | success (j : PrintJob)
  | capacityExceeded
  | validationError
deriving DecidableEq, Repr

/-- Whether an `AddResult` is a successful submission. -/
def AddResult.isSuccess : AddResult → Bool
  | .success _ => true
  | _ => false

/-- `addJob` of `spool.c`, with the page count and priority that the C
code reads interactively passed as arguments.  Mirrors the source: the
capacity check comes first; then `newJob.job_id = next_job_id++`; then
validation, which on failure rolls the id counter back
(`next_job_id--`) and leaves the queue untouched; on success the job is
stored at index `job_count` and `job_count` grows by one. -/
def addJob (s : SpoolState) (page_count priority : Int) : SpoolState × AddResult :=
  if s.job_queue.length ≥ MAX_JOBS then
    (s, AddResult.capacityExceeded)
  else if page_count ≤ 0 ∨ priority ≤ 0 then
    ({ s with next_job_id := s.next_job_id + 1 - 1 }, AddResult.validationError)
  else
    ({ s with
        job_queue := s.job_queue ++ [⟨s.next_job_id, page_count, priority⟩]
        next_job_id := s.next_job_id + 1 },
      AddResult.success ⟨s.next_job_id, page_count, priority⟩)

/-- Process a list of submission requests `(page_count, priority)`
starting from a given state, the way successive menu choices `1` do. -/
def processRequests (s : SpoolState) (reqs : List (Int × Int)) : SpoolState :=
  reqs.foldl (fun st r => (addJob st r.1 r.2).1) s

/-- `compareSJF` of `spool.c`: `jobA->page_count - jobB->page_count`. -/
def compareSJF (jobA jobB : PrintJob) : Int :=
  jobA.page_count - jobB.page_count

/-- `comparePriority` of `spool.c`: ascending priority, ties broken by
`job_id`. -/
def comparePriority (jobA jobB : PrintJob) : Int :=
  if jobA.priority ≠ jobB.priority then
    jobA.priority - jobB.priority
  else
    jobA.job_id - jobB.job_id

/-- Modelled from the contract of the C standard library `qsort` (not
part of this repository's sources): the output array is a permutation
of the input, sorted in ascending order according to the comparator.
The relative order of elements that compare equal is unspecified, so
any output satisfying this postcondition is a possible result. -/
def qsortPost (cmp : PrintJob → PrintJob → Int) (input output : List PrintJob) : Prop :=
  output.Perm input ∧ output.Pairwise (fun a b => cmp a b ≤ 0)

/-- One row of the metrics table printed by `calculateMetrics`. -/
structure MetricsRow where
  job_id : Int
  page_count : Int
  priority : Int
  wait_time : Int
  turnaround_time : Int
deriving DecidableEq, Repr

/-- The report produced by one simulation run: the per-job rows and the
two averages. -/
structure MetricsReport where
  rows : List MetricsRow
  avg_wait_time : ℚ
  avg_turnaround_time : ℚ
deriving DecidableEq, Repr

/-- The loop of `calculateMetrics`: walking the queue with the running
clock `current_time`, producing each job's row
(`wait_time = current_time`, `turnaround_time = wait_time + page_count`,
then `current_time += page_count`) together with the accumulated
`total_wait_time` and `total_turnaround_time`. -/
def metricsLoop (current_time : Int) : List PrintJob → List MetricsRow × Int × Int
  | [] => ([], 0, 0)
  | job :: rest =>
    let wait_time := current_time
    let turnaround_time := wait_time + job.page_count
    let r := metricsLoop (current_time + job.page_count) rest
    (⟨job.job_id, job.page_count, job.priority, wait_time, turnaround_time⟩ :: r.1,
      wait_time + r.2.1, turnaround_time + r.2.2)

/-- `calculateMetrics` of `spool.c`: runs the loop with the clock at 0
and divides the accumulated totals by the job count. -/
def calculateMetrics (queue : List PrintJob) : MetricsReport :=
  let r := metricsLoop 0 queue
  { rows := r.1
    avg_wait_time := (r.2.1 : ℚ) / (queue.length : ℚ)
    avg_turnaround_time := (r.2.2 : ℚ) / (queue.length : ℚ) }

/-- Outcome of a simulation command: a metrics report, or the
"Cannot run simulation: The print queue is empty." failure. -/
inductive SimResult where
  | report (m : MetricsReport)
  | emptyQueueError
deriving DecidableEq, Repr

/-- `runFCFS` of `spool.c` as a relation between the global state and
the (state after the call, outcome) pair: on an empty queue it fails,
otherwise it hands `job_queue` itself, unsorted, to `calculateMetrics`;
the globals are never written. -/
def runFCFSRel (s : SpoolState) (res : SpoolState × SimResult) : Prop :=
  if s.job_queue.length = 0 then
    res = (s, SimResult.emptyQueueError)
  else
    res = (s, SimResult.report (calculateMetrics s.job_queue))

/-- `runSJF` of `spool.c` as a relation: on an empty queue it fails;
otherwise it copies `job_queue` into `temp_queue`, sorts the copy with
`qsort`/`compareSJF` (any output permitted by the `qsort` contract),
and hands the sorted copy to `calculateMetrics`; the globals are never
written. -/
def runSJFRel (s : SpoolState) (res : SpoolState × SimResult) : Prop :=
  if s.job_queue.length = 0 then
    res = (s, SimResult.emptyQueueError)
  else
    ∃ temp_queue, qsortPost compareSJF s.job_queue temp_queue ∧
      res = (s, SimResult.report (calculateMetrics temp_queue))

/-- `runPriority` of `spool.c` as a relation: like `runSJF` but sorting
the copy with `comparePriority`. -/
def runPriorityRel (s : SpoolState) (res : SpoolState × SimResult) : Prop :=
  if s.job_queue.length = 0 then
    res = (s, SimResult.emptyQueueError)
  else
    ∃ temp_queue, qsortPost comparePriority s.job_queue temp_queue ∧
      res = (s, SimResult.report (calculateMetrics temp_queue))

/-- `a` occurs (strictly) before `b` in `l`. -/
def beforeIn (l : List PrintJob) (a b : PrintJob) : Prop :=
  [a, b].Sublist l

/-- The ordering `output` preserves the relative order of the elements
of `input` that share the same `key` (stability of a sort w.r.t. the
key). -/
def stableBy (key : PrintJob → Int) (input output : List PrintJob) : Prop :=
  ∀ a ∈ input, ∀ b ∈ input, key a = key b → beforeIn input a b → beforeIn output a b

instance (l : List PrintJob) (a b : PrintJob) : Decidable (beforeIn l a b) :=
  inferInstanceAs (Decidable ([a, b].Sublist l))

instance (key : PrintJob → Int) (input output : List PrintJob) :
    Decidable (stableBy key input output) :=
  inferInstanceAs (Decidable (∀ a ∈ input, ∀ b ∈ input,
    key a = key b → beforeIn input a b → beforeIn output a b))

/-- The repository invariant of `spool.c`'s globals: at most `MAX_JOBS`
jobs, `next_job_id` one past the number of stored jobs, and the job at
index `i` carries id `i + 1`. -/
def RepoInv (s : SpoolState) : Prop :=
  s.job_queue.length ≤ MAX_JOBS ∧
  s.next_job_id = (s.job_queue.length : Int) + 1 ∧
  ∀ i : Nat, ∀ h : i < s.job_queue.length,
    (s.job_queue.get ⟨i, h⟩).job_id = (i : Int) + 1

/-! ### Helper lemmas -/

/-- Total page count of a list of jobs. -/
def sumPages (l : List PrintJob) : Int := (l.map PrintJob.page_count).sum

lemma metricsLoop_length (t : Int) (l : List PrintJob) :
    ((metricsLoop t l).1).length = l.length := by
  induction l generalizing t with
  | nil => rfl
  | cons j rest ih => simp [metricsLoop, ih]

lemma sumPages_take_succ (l : List PrintJob) (i : Nat) (h : i < l.length) :
    sumPages (l.take (i + 1)) = sumPages (l.take i) + (l.get ⟨i, h⟩).page_count := by
  unfold sumPages
  rw [List.map_take, List.map_take, List.sum_take_succ _ i (by simpa using h)]
  simp

lemma metricsLoop_get (l : List PrintJob) (t : Int) (i : Nat)
    (hi : i < l.length) (hr : i < ((metricsLoop t l).1).length) :
    (metricsLoop t l).1.get ⟨i, hr⟩ =
      ⟨(l.get ⟨i, hi⟩).job_id, (l.get ⟨i, hi⟩).page_count, (l.get ⟨i, hi⟩).priority,
        t + sumPages (l.take i), t + sumPages (l.take i) + (l.get ⟨i, hi⟩).page_count⟩ := by
  induction l generalizing t i with
  | nil => exact absurd hi (Nat.not_lt_zero i)
  | cons j rest ih =>
    cases i with
    | zero => simp [metricsLoop, sumPages]
    | succ k =>
      have hk : k < rest.length := Nat.lt_of_succ_lt_succ hi
      have hrk : k < ((metricsLoop (t + j.page_count) rest).1).length := by
        rw [metricsLoop_length]; exact hk
      have hgoal : (metricsLoop t (j :: rest)).1.get ⟨k + 1, hr⟩ =
          (metricsLoop (t + j.page_count) rest).1.get ⟨k, hrk⟩ := by
        simp [metricsLoop]
      rw [hgoal, ih (t + j.page_count) k hk hrk]
      have hget : (j :: rest).get ⟨k + 1, hi⟩ = rest.get ⟨k, hk⟩ := List.get_cons_succ
      rw [hget, List.take_succ_cons]
      have hsum : sumPages (j :: rest.take k) = j.page_count + sumPages (rest.take k) := by
        simp [sumPages]
      rw [hsum]
      simp only [MetricsRow.mk.injEq]
      refine ⟨trivial, trivial, trivial, ?_, ?_⟩ <;> omega

lemma metricsLoop_get_wait (l : List PrintJob) (t : Int) (i : Nat)
    (hi : i < l.length) (hr : i < ((metricsLoop t l).1).length) :
    ((metricsLoop t l).1.get ⟨i, hr⟩).wait_time = t + sumPages (l.take i) := by
  rw [metricsLoop_get l t i hi hr]

lemma metricsLoop_get_turnaround (l : List PrintJob) (t : Int) (i : Nat)
    (hi : i < l.length) (hr : i < ((metricsLoop t l).1).length) :
    ((metricsLoop t l).1.get ⟨i, hr⟩).turnaround_time =
      t + sumPages (l.take i) + (l.get ⟨i, hi⟩).page_count := by
  rw [metricsLoop_get l t i hi hr]

lemma metricsLoop_total_wait (t : Int) (l : List PrintJob) :
    (metricsLoop t l).2.1 = (((metricsLoop t l).1).map MetricsRow.wait_time).sum := by
  induction l generalizing t with
  | nil => rfl
  | cons j rest ih => simp [metricsLoop, ih]

lemma metricsLoop_total_turnaround (t : Int) (l : List PrintJob) :
    (metricsLoop t l).2.2 = (((metricsLoop t l).1).map MetricsRow.turnaround_time).sum := by
  induction l generalizing t with
  | nil => rfl
  | cons j rest ih => simp [metricsLoop, ih]

lemma pair_sublist_of_mem {l : List PrintJob} {a b : PrintJob}
    (ha : a ∈ l) (hb : b ∈ l) (hab : a ≠ b) :
    [a, b].Sublist l ∨ [b, a].Sublist l := by
  induction l with
  | nil => simp at ha
  | cons x t ih =>
    rcases List.mem_cons.mp ha with rfl | ha'
    · left
      have hb' : b ∈ t := by
        rcases List.mem_cons.mp hb with h | h
        · exact absurd h.symm hab
        · exact h
      exact (List.singleton_sublist.mpr hb').cons₂ a
    · rcases List.mem_cons.mp hb with rfl | hb'
      · right
        exact (List.singleton_sublist.mpr ha').cons₂ b
      · rcases ih ha' hb' with h | h
        · exact Or.inl (h.cons x)
        · exact Or.inr (h.cons x)

lemma repoInv_initState : RepoInv initState := by
  refine ⟨by simp [initState, MAX_JOBS], by simp [initState], ?_⟩
  intro i h
  simp [initState] at h

lemma repoInv_addJob (s : SpoolState) (pc pr : Int) (h : RepoInv s) :
    RepoInv (addJob s pc pr).1 := by
  obtain ⟨hlen, hnext, hids⟩ := h
  unfold addJob
  by_cases hcap : s.job_queue.length ≥ MAX_JOBS
  · rw [if_pos hcap]
    exact ⟨hlen, hnext, hids⟩
  · rw [if_neg hcap]
    by_cases hval : pc ≤ 0 ∨ pr ≤ 0
    · rw [if_pos hval]
      exact ⟨hlen, by simp; omega, hids⟩
    · rw [if_neg hval]
      refine ⟨?_, ?_, ?_⟩
      · simp only [List.length_append, List.length_cons, List.length_nil]
        omega
      · simp only [List.length_append, List.length_cons, List.length_nil]
        push_cast
        omega
      · intro i hi
        simp only [List.length_append, List.length_cons, List.length_nil] at hi
        by_cases hip : i < s.job_queue.length
        · rw [List.get_append i hip]
          exact hids i hip
        · have hieq : i = s.job_queue.length := by omega
          subst hieq
          rw [List.get_append_right _ _ (le_refl _)]
          · simp [hnext]
          · simp

lemma repoInv_processRequests (reqs : List (Int × Int)) (s : SpoolState)
    (h : RepoInv s) : RepoInv (processRequests s reqs) := by
  induction reqs generalizing s with
  | nil => exact h
  | cons r rest ih => exact ih _ (repoInv_addJob s r.1 r.2 h)

/-! ### Claim theorems -/

/-- Claim C1: for every non-empty ordered job sequence given to
`calculateMetrics`, the first job's wait time is 0; each later job's
wait time is the previous job's wait time plus the previous job's
size; and every job's turnaround time is its wait time plus its
size. -/
theorem calculateMetrics_wait_recurrence (queue : List PrintJob) (hne : queue ≠ []) :
    ((calculateMetrics queue).rows).length = queue.length ∧
    (∀ h0 : 0 < ((calculateMetrics queue).rows).length,
      (((calculateMetrics queue).rows).get ⟨0, h0⟩).wait_time = 0) ∧
    (∀ k : Nat, ∀ hk : k + 1 < ((calculateMetrics queue).rows).length,
      ∀ hq : k + 1 < queue.length,
      (((calculateMetrics queue).rows).get ⟨k + 1, hk⟩).wait_time =
        (((calculateMetrics queue).rows).get ⟨k, Nat.lt_of_succ_lt hk⟩).wait_time +
          (queue.get ⟨k, Nat.lt_of_succ_lt hq⟩).page_count) ∧
    (∀ k : Nat, ∀ hk : k < ((calculateMetrics queue).rows).length, ∀ hq : k < queue.length,
      (((calculateMetrics queue).rows).get ⟨k, hk⟩).turnaround_time =
        (((calculateMetrics queue).rows).get ⟨k, hk⟩).wait_time +
          (queue.get ⟨k, hq⟩).page_count) := by
  have hlen : ((calculateMetrics queue).rows).length = queue.length :=
    metricsLoop_length 0 queue
  refine ⟨hlen, ?_, ?_, ?_⟩
  · intro h0
    have h0q : 0 < queue.length := by rw [← hlen]; exact h0
    show (((metricsLoop 0 queue).1).get ⟨0, h0⟩).wait_time = 0
    rw [metricsLoop_get_wait queue 0 0 h0q h0]
    simp [sumPages]
  · intro k hk hq
    have hkq : k < queue.length := Nat.lt_of_succ_lt hq
    show (((metricsLoop 0 queue).1).get ⟨k + 1, hk⟩).wait_time =
        (((metricsLoop 0 queue).1).get ⟨k, Nat.lt_of_succ_lt hk⟩).wait_time +
          (queue.get ⟨k, Nat.lt_of_succ_lt hq⟩).page_count
    rw [metricsLoop_get_wait queue 0 (k + 1) hq hk,
      metricsLoop_get_wait queue 0 k hkq (Nat.lt_of_succ_lt hk),
      sumPages_take_succ queue k hkq]
    omega
  · intro k hk hq
    show (((metricsLoop 0 queue).1).get ⟨k, hk⟩).turnaround_time =
        (((metricsLoop 0 queue).1).get ⟨k, hk⟩).wait_time + (queue.get ⟨k, hq⟩).page_count
    rw [metricsLoop_get_turnaround queue 0 k hq hk, metricsLoop_get_wait queue 0 k hq hk]

/-- Witness for C1: the concrete queue `[⟨1,2,1⟩, ⟨2,3,1⟩]` has wait
times `0` and `0 + 2` and turnaround time `wait + size` for the second
job. -/
theorem calculateMetrics_wait_recurrence_witness :
    ((calculateMetrics [⟨1, 2, 1⟩, ⟨2, 3, 1⟩]).rows).length = 2 ∧
    (((calculateMetrics [⟨1, 2, 1⟩, ⟨2, 3, 1⟩]).rows).get ⟨0, by decide⟩).wait_time = 0 ∧
    (((calculateMetrics [⟨1, 2, 1⟩, ⟨2, 3, 1⟩]).rows).get ⟨1, by decide⟩).wait_time =
      (((calculateMetrics [⟨1, 2, 1⟩, ⟨2, 3, 1⟩]).rows).get ⟨0, by decide⟩).wait_time + 2 ∧
    (((calculateMetrics [⟨1, 2, 1⟩, ⟨2, 3, 1⟩]).rows).get ⟨1, by decide⟩).turnaround_time =
      (((calculateMetrics [⟨1, 2, 1⟩, ⟨2, 3, 1⟩]).rows).get ⟨1, by decide⟩).wait_time + 3 := by
  have h := calculateMetrics_wait_recurrence [⟨1, 2, 1⟩, ⟨2, 3, 1⟩] (by decide)
  exact ⟨h.1, h.2.1 (by decide), h.2.2.1 0 (by decide) (by decide),
    h.2.2.2 1 (by decide) (by decide)⟩

/-- Claim C9: for every non-empty queue, the reported averages are
exactly the sums of the per-job wait and turnaround values of the same
pass divided by the number of jobs. -/
theorem calculateMetrics_avg (queue : List PrintJob) (hne : queue ≠ []) :
    (calculateMetrics queue).avg_wait_time =
      (((((calculateMetrics queue).rows).map MetricsRow.wait_time).sum : Int) : ℚ) /
        (queue.length : ℚ) ∧
    (calculateMetrics queue).avg_turnaround_time =
      (((((calculateMetrics queue).rows).map MetricsRow.turnaround_time).sum : Int) : ℚ) /
        (queue.length : ℚ) := by
  constructor
  · show ((metricsLoop 0 queue).2.1 : ℚ) / (queue.length : ℚ) = _
    rw [metricsLoop_total_wait]
    rfl
  · show ((metricsLoop 0 queue).2.2 : ℚ) / (queue.length : ℚ) = _
    rw [metricsLoop_total_turnaround]
    rfl

/-- Witness for C9: on the concrete queue `[⟨1,2,1⟩, ⟨2,4,1⟩]` the
averages are the sums of the per-job values over 2. -/
theorem calculateMetrics_avg_witness :
    (calculateMetrics [⟨1, 2, 1⟩, ⟨2, 4, 1⟩]).avg_wait_time =
      (((((calculateMetrics [⟨1, 2, 1⟩, ⟨2, 4, 1⟩]).rows).map MetricsRow.wait_time).sum : Int) : ℚ) /
        (([(⟨1, 2, 1⟩ : PrintJob), ⟨2, 4, 1⟩].length) : ℚ) ∧
    (calculateMetrics [⟨1, 2, 1⟩, ⟨2, 4, 1⟩]).avg_turnaround_time =
      (((((calculateMetrics [⟨1, 2, 1⟩, ⟨2, 4, 1⟩]).rows).map MetricsRow.turnaround_time).sum : Int) : ℚ) /
        (([(⟨1, 2, 1⟩ : PrintJob), ⟨2, 4, 1⟩].length) : ℚ) :=
  calculateMetrics_avg [⟨1, 2, 1⟩, ⟨2, 4, 1⟩] (by decide)

/-- Counterexample for C2: with two equal-size jobs submitted as id 1
then id 2, the output `[job 2, job 1]` is a possible result of
`runSJF`'s sort (`compareSJF` gives no tie-break, so the `qsort`
contract allows it), yet it does not preserve the submission order of
the equal-size jobs. -/
theorem compareSJF_not_stable :
    runSJFRel ⟨[⟨1, 5, 1⟩, ⟨2, 5, 2⟩], 3⟩
      (⟨[⟨1, 5, 1⟩, ⟨2, 5, 2⟩], 3⟩,
        SimResult.report (calculateMetrics [⟨2, 5, 2⟩, ⟨1, 5, 1⟩])) ∧
    ¬ stableBy PrintJob.page_count [⟨1, 5, 1⟩, ⟨2, 5, 2⟩] [⟨2, 5, 2⟩, ⟨1, 5, 1⟩] := by
  constructor
  · unfold runSJFRel
    rw [if_neg (by decide)]
    exact ⟨[⟨2, 5, 2⟩, ⟨1, 5, 1⟩], ⟨by decide, by decide⟩, rfl⟩
  · intro h
    have := h ⟨1, 5, 1⟩ (by decide) ⟨2, 5, 2⟩ (by decide) rfl (by decide)
    exact absurd this (by decide)

/-- Claim C2 (amended): every output allowed for `runSJF`'s sort is
non-decreasing in `page_count`; the relative order of equal-size jobs
is not guaranteed, since `compareSJF` compares only `page_count` and
`qsort` need not be stable. -/
theorem runSJF_sorted_by_size (l out : List PrintJob) (h : qsortPost compareSJF l out) :
    out.Pairwise (fun a b => a.page_count ≤ b.page_count) := by
  refine h.2.imp ?_
  intro a b hab
  unfold compareSJF at hab
  omega

/-- Witness for the amended C2 on a concrete sort output. -/
theorem runSJF_sorted_by_size_witness :
    ([⟨2, 1, 2⟩, ⟨1, 3, 1⟩] : List PrintJob).Pairwise
      (fun a b => a.page_count ≤ b.page_count) :=
  runSJF_sorted_by_size [⟨1, 3, 1⟩, ⟨2, 1, 2⟩] [⟨2, 1, 2⟩, ⟨1, 3, 1⟩]
    ⟨by decide, by decide⟩

/-- Claim C3: for a job sequence whose ids are strictly increasing (as
the repository produces), every output allowed for `runPriority`'s sort
is non-decreasing in `priority`, and equal-priority jobs keep their
submission order, thanks to `comparePriority`'s `job_id` tie-break. -/
theorem runPriority_sorted_stable (l out : List PrintJob)
    (hl : l.Pairwise (fun a b => a.job_id < b.job_id))
    (h : qsortPost comparePriority l out) :
    out.Pairwise (fun a b => a.priority ≤ b.priority) ∧
    stableBy PrintJob.priority l out := by
  constructor
  · refine h.2.imp ?_
    intro a b hab
    unfold comparePriority at hab
    by_cases hp : a.priority = b.priority
    · exact le_of_eq hp
    · rw [if_pos hp] at hab
      omega
  · intro a ha b hb hkey hbefore
    have hid : a.job_id < b.job_id :=
      List.pairwise_iff_forall_sublist.mp hl hbefore
    have hne : a ≠ b := by
      intro he
      rw [he] at hid
      exact lt_irrefl _ hid
    have ha' : a ∈ out := (h.1.mem_iff).mpr ha
    have hb' : b ∈ out := (h.1.mem_iff).mpr hb
    rcases pair_sublist_of_mem ha' hb' hne with hgood | hbad
    · exact hgood
    · exfalso
      have hcmp : comparePriority b a ≤ 0 :=
        List.pairwise_iff_forall_sublist.mp h.2 hbad
      unfold comparePriority at hcmp
      have hkey' : b.priority = a.priority := hkey.symm
      rw [if_neg (by simp [hkey'])] at hcmp
      omega

/-- Witness for C3 on a concrete sort output. -/
theorem runPriority_sorted_stable_witness :
    ([⟨2, 7, 1⟩, ⟨1, 5, 2⟩, ⟨3, 9, 2⟩] : List PrintJob).Pairwise
      (fun a b => a.priority ≤ b.priority) ∧
    stableBy PrintJob.priority [⟨1, 5, 2⟩, ⟨2, 7, 1⟩, ⟨3, 9, 2⟩]
      [⟨2, 7, 1⟩, ⟨1, 5, 2⟩, ⟨3, 9, 2⟩] :=
  runPriority_sorted_stable [⟨1, 5, 2⟩, ⟨2, 7, 1⟩, ⟨3, 9, 2⟩]
    [⟨2, 7, 1⟩, ⟨1, 5, 2⟩, ⟨3, 9, 2⟩] (by decide) ⟨by decide, by decide⟩

/-- Claim C6: for each policy (FCFS hands the queue itself; SJF and
Priority hand any sort output allowed by the `qsort` contract), the
sequence handed to `calculateMetrics` carries exactly the same multiset
of job ids as the input queue. -/
theorem order_preserves_ids (l temp : List PrintJob)
    (h : temp = l ∨ qsortPost compareSJF l temp ∨ qsortPost comparePriority l temp) :
    (↑(temp.map PrintJob.job_id) : Multiset Int) = ↑(l.map PrintJob.job_id) := by
  rcases h with rfl | h | h
  · rfl
  · exact Multiset.coe_eq_coe.mpr (h.1.map PrintJob.job_id)
  · exact Multiset.coe_eq_coe.mpr (h.1.map PrintJob.job_id)

/-- Witness for C6 on a concrete SJF sort output. -/
theorem order_preserves_ids_witness :
    (↑(([⟨2, 1, 2⟩, ⟨1, 3, 1⟩] : List PrintJob).map PrintJob.job_id) : Multiset Int) =
      ↑(([⟨1, 3, 1⟩, ⟨2, 1, 2⟩] : List PrintJob).map PrintJob.job_id) :=
  order_preserves_ids [⟨1, 3, 1⟩, ⟨2, 1, 2⟩] [⟨2, 1, 2⟩, ⟨1, 3, 1⟩]
    (Or.inr (Or.inl ⟨by decide, by decide⟩))

/-- Claim C4: starting from the initial state, after any sequence of
submissions the accepted jobs carry ids `1, 2, ...` in order (strictly
increasing, starting at 1, no gaps), and any rejected submission leaves
the id counter `next_job_id` unchanged. -/
theorem addJob_ids_sequential (reqs : List (Int × Int)) :
    (∀ i : Nat, ∀ h : i < (processRequests initState reqs).job_queue.length,
      ((processRequests initState reqs).job_queue.get ⟨i, h⟩).job_id = (i : Int) + 1) ∧
    (∀ s : SpoolState, ∀ pc pr : Int, (addJob s pc pr).2.isSuccess = false →
      (addJob s pc pr).1.next_job_id = s.next_job_id) := by
  constructor
  · exact (repoInv_processRequests reqs initState repoInv_initState).2.2
  · intro s pc pr hrej
    unfold addJob at hrej ⊢
    by_cases hcap : s.job_queue.length ≥ MAX_JOBS
    · rw [if_pos hcap]
    · rw [if_neg hcap]
      by_cases hval : pc ≤ 0 ∨ pr ≤ 0
      · rw [if_pos hval]
        show s.next_job_id + 1 - 1 = s.next_job_id
        omega
      · exfalso
        rw [if_neg hcap, if_neg hval] at hrej
        simp [AddResult.isSuccess] at hrej

/-- Witness for C4: submitting (5,1), (0,2) — rejected — and (7,3)
gives the second stored job id 2, and a rejected submission leaves the
counter at its old value. -/
theorem addJob_ids_sequential_witness :
    ((processRequests initState [(5, 1), (0, 2), (7, 3)]).job_queue.get
        ⟨1, by decide⟩).job_id = ((1 : Nat) : Int) + 1 ∧
    (addJob initState 0 1).1.next_job_id = initState.next_job_id := by
  have h := addJob_ids_sequential [(5, 1), (0, 2), (7, 3)]
  exact ⟨h.1 1 (by decide), h.2 initState 0 1 (by decide)⟩

/-- Claim C5: a simulation requested with zero jobs in the repository
fails with the empty-queue error and produces no metrics report, for
each of the three policies. -/
theorem empty_queue_fails (s : SpoolState) (r1 r2 r3 : SpoolState × SimResult)
    (h0 : s.job_queue.length = 0)
    (h1 : runFCFSRel s r1) (h2 : runSJFRel s r2) (h3 : runPriorityRel s r3) :
    r1.2 = SimResult.emptyQueueError ∧ r2.2 = SimResult.emptyQueueError ∧
      r3.2 = SimResult.emptyQueueError := by
  unfold runFCFSRel at h1
  unfold runSJFRel at h2
  unfold runPriorityRel at h3
  rw [if_pos h0] at h1 h2 h3
  exact ⟨by rw [h1], by rw [h2], by rw [h3]⟩

/-- Witness for C5 on the initial (empty) repository. -/
theorem empty_queue_fails_witness :
    ((initState, SimResult.emptyQueueError) : SpoolState × SimResult).2 =
        SimResult.emptyQueueError ∧
    ((initState, SimResult.emptyQueueError) : SpoolState × SimResult).2 =
        SimResult.emptyQueueError ∧
    ((initState, SimResult.emptyQueueError) : SpoolState × SimResult).2 =
        SimResult.emptyQueueError :=
  empty_queue_fails initState (initState, SimResult.emptyQueueError)
    (initState, SimResult.emptyQueueError) (initState, SimResult.emptyQueueError) rfl
    (by unfold runFCFSRel; rw [if_pos (show initState.job_queue.length = 0 from rfl)])
    (by unfold runSJFRel; rw [if_pos (show initState.job_queue.length = 0 from rfl)])
    (by unfold runPriorityRel; rw [if_pos (show initState.job_queue.length = 0 from rfl)])

/-- Claim C7: running any of the three simulations leaves the
repository state — queue contents, job count, id counter — unchanged;
the ordering policies work on a derived copy. -/
theorem simulations_preserve_state (s : SpoolState) (r1 r2 r3 : SpoolState × SimResult)
    (h1 : runFCFSRel s r1) (h2 : runSJFRel s r2) (h3 : runPriorityRel s r3) :
    r1.1 = s ∧ r2.1 = s ∧ r3.1 = s := by
  unfold runFCFSRel at h1
  unfold runSJFRel at h2
  unfold runPriorityRel at h3
  by_cases h0 : s.job_queue.length = 0
  · rw [if_pos h0] at h1 h2 h3
    exact ⟨by rw [h1], by rw [h2], by rw [h3]⟩
  · rw [if_neg h0] at h1 h2 h3
    obtain ⟨t2, _ht2, h2⟩ := h2
    obtain ⟨t3, _ht3, h3⟩ := h3
    exact ⟨by rw [h1], by rw [h2], by rw [h3]⟩

/-- Witness for C7 on a one-job repository. -/
theorem simulations_preserve_state_witness :
    ((⟨[⟨1, 2, 3⟩], 2⟩ : SpoolState),
        SimResult.report (calculateMetrics [⟨1, 2, 3⟩])).1 = (⟨[⟨1, 2, 3⟩], 2⟩ : SpoolState) ∧
    ((⟨[⟨1, 2, 3⟩], 2⟩ : SpoolState),
        SimResult.report (calculateMetrics [⟨1, 2, 3⟩])).1 = (⟨[⟨1, 2, 3⟩], 2⟩ : SpoolState) ∧
    ((⟨[⟨1, 2, 3⟩], 2⟩ : SpoolState),
        SimResult.report (calculateMetrics [⟨1, 2, 3⟩])).1 = (⟨[⟨1, 2, 3⟩], 2⟩ : SpoolState) :=
  simulations_preserve_state ⟨[⟨1, 2, 3⟩], 2⟩
    (⟨[⟨1, 2, 3⟩], 2⟩, SimResult.report (calculateMetrics [⟨1, 2, 3⟩]))
    (⟨[⟨1, 2, 3⟩], 2⟩, SimResult.report (calculateMetrics [⟨1, 2, 3⟩]))
    (⟨[⟨1, 2, 3⟩], 2⟩, SimResult.report (calculateMetrics [⟨1, 2, 3⟩]))
    (by unfold runFCFSRel; rw [if_neg (by decide)])
    (by
      unfold runSJFRel
      rw [if_neg (by decide)]
      exact ⟨[⟨1, 2, 3⟩], ⟨by decide, by decide⟩, rfl⟩)
    (by
      unfold runPriorityRel
      rw [if_neg (by decide)]
      exact ⟨[⟨1, 2, 3⟩], ⟨by decide, by decide⟩, rfl⟩)

/-- Claim C8: the capacity bound is `MAX_JOBS = 100`; a submission
attempted when the repository is full fails with `capacityExceeded`
and leaves the whole state unchanged. -/
theorem addJob_capacity (s : SpoolState) (pc pr : Int)
    (hfull : s.job_queue.length ≥ MAX_JOBS) :
    MAX_JOBS = 100 ∧ addJob s pc pr = (s, AddResult.capacityExceeded) := by
  refine ⟨rfl, ?_⟩
  unfold addJob
  rw [if_pos hfull]

/-- Witness for C8 on a repository holding 100 jobs. -/
theorem addJob_capacity_witness :
    MAX_JOBS = 100 ∧
    addJob ⟨List.replicate 100 ⟨1, 1, 1⟩, 101⟩ 5 1 =
      ((⟨List.replicate 100 ⟨1, 1, 1⟩, 101⟩ : SpoolState), AddResult.capacityExceeded) :=
  addJob_capacity ⟨List.replicate 100 ⟨1, 1, 1⟩, 101⟩ 5 1 (by decide)

/-- Claim C10: the repository invariant — `job_count ≤ MAX_JOBS`,
`next_job_id = job_count + 1`, the job at index `i` has id `i + 1` —
holds initially and is maintained by `addJob` whether the submission is
accepted or rejected, and the queue is written (extended at index
`job_count`) only when `job_count < MAX_JOBS`. -/
theorem addJob_invariant :
    RepoInv initState ∧
    (∀ s : SpoolState, ∀ pc pr : Int, RepoInv s → RepoInv (addJob s pc pr).1) ∧
    (∀ s : SpoolState, ∀ pc pr : Int,
      (addJob s pc pr).1.job_queue = s.job_queue ∨
        (s.job_queue.length < MAX_JOBS ∧
          (addJob s pc pr).1.job_queue = s.job_queue ++ [⟨s.next_job_id, pc, pr⟩])) := by
  refine ⟨repoInv_initState, fun s pc pr h => repoInv_addJob s pc pr h, ?_⟩
  intro s pc pr
  unfold addJob
  by_cases hcap : s.job_queue.length ≥ MAX_JOBS
  · rw [if_pos hcap]
    exact Or.inl rfl
  · rw [if_neg hcap]
    by_cases hval : pc ≤ 0 ∨ pr ≤ 0
    · rw [if_pos hval]
      exact Or.inl rfl
    · rw [if_neg hval]
      exact Or.inr ⟨by omega, rfl⟩

/-- Witness for C10: the invariant holds after one accepted submission
to the initial state, which appends a job with id 1. -/
theorem addJob_invariant_witness :
    RepoInv (addJob initState 5 1).1 ∧
    ((addJob initState 5 1).1.job_queue = initState.job_queue ∨
      (initState.job_queue.length < MAX_JOBS ∧
        (addJob initState 5 1).1.job_queue =
          initState.job_queue ++ [⟨initState.next_job_id, 5, 1⟩])) :=
  ⟨addJob_invariant.2.1 initState 5 1 addJob_invariant.1,
    addJob_invariant.2.2 initState 5 1⟩
